import Mathlib

/-!
Verification of the qrcon QR-code encoder and payload fitter.

This file gives a shallow embedding of the C sources (qrcon.c QR generator
library, and the qrcon kernel-module driver file) into Lean 4, and proves or
refutes the frozen claims about them.

Machine integers are modelled as Nat with explicit reductions (`% 256` for u8
reads, `% 65536` where a u16 store can truncate, `% 2 ^ 64` where a size_t
subtraction can wrap).  Memory buffers are modelled as total functions
`Nat → Nat` holding byte values; external collaborators (the ZSTD compressor)
are modelled as oracle parameters.
-/

/-! ## Version parameter tables (qr_generator, VPARAM and friends) -/

/-- Padding bytes, `static const u8 PADDING[2] = {236, 17}`. -/
def PADDING : List Nat := [236, 17]

/-- Generator polynomial P7 (log-domain coefficients). -/
def P7 : List Nat := [87, 229, 146, 149, 238, 102, 21]

/-- Generator polynomial P10. -/
def P10 : List Nat := [251, 67, 46, 61, 118, 70, 64, 94, 32, 45]

/-- Generator polynomial P15. -/
def P15 : List Nat := [8, 183, 61, 91, 202, 37, 51, 58, 58, 237, 140, 124, 5, 99, 105]

/-- Generator polynomial P18. -/
def P18 : List Nat :=
  [215, 234, 158, 94, 184, 97, 118, 170, 79, 187, 152, 148, 252, 179, 5, 98, 96, 153]

/-- Generator polynomial P20. -/
def P20 : List Nat :=
  [17, 60, 79, 50, 61, 163, 26, 187, 202, 180, 221, 225, 83, 239, 156, 164, 212, 212, 188, 190]

/-- Generator polynomial P22. -/
def P22 : List Nat :=
  [210, 171, 247, 242, 93, 230, 14, 109, 221, 53, 200, 74, 8, 172, 98, 80, 219, 134, 160, 105,
   165, 231]

/-- Generator polynomial P24. -/
def P24 : List Nat :=
  [229, 121, 135, 48, 211, 117, 251, 126, 159, 180, 169, 152, 192, 226, 228, 218, 111, 0, 117,
   232, 87, 96, 227, 21]

/-- Generator polynomial P26. -/
def P26 : List Nat :=
  [173, 125, 158, 2, 103, 182, 118, 17, 145, 201, 111, 28, 165, 53, 161, 21, 245, 142, 13, 102,
   48, 227, 153, 145, 218, 70]

/-- Generator polynomial P28. -/
def P28 : List Nat :=
  [168, 223, 200, 104, 224, 234, 108, 180, 110, 190, 195, 147, 205, 27, 232, 201, 21, 43, 245, 87,
   42, 195, 212, 119, 242, 37, 9, 123]

/-- Generator polynomial P30. -/
def P30 : List Nat :=
  [41, 173, 145, 152, 216, 31, 179, 182, 50, 48, 110, 86, 239, 96, 222, 125, 42, 173, 226, 193,
   224, 130, 156, 37, 251, 216, 238, 40, 192, 180]

/-- The `struct qr_version_param` record: per-version ECC parameters for Low quality. -/
structure QrVersionParam where
  poly : List Nat
  g1_blocks : Nat
  g2_blocks : Nat
  g1_blk_size : Nat
deriving DecidableEq

/-- Table `VPARAM[40]`: QR version parameters for Low quality ECC, indexed by v-1. -/
def VPARAM : List QrVersionParam :=
  [⟨P7, 1, 0, 19⟩,     -- V1
   ⟨P10, 1, 0, 34⟩,    -- V2
   ⟨P15, 1, 0, 55⟩,    -- V3
   ⟨P20, 1, 0, 80⟩,    -- V4
   ⟨P26, 1, 0, 108⟩,   -- V5
   ⟨P18, 2, 0, 68⟩,    -- V6
   ⟨P20, 2, 0, 78⟩,    -- V7
   ⟨P24, 2, 0, 97⟩,    -- V8
   ⟨P30, 2, 0, 116⟩,   -- V9
   ⟨P18, 2, 2, 68⟩,    -- V10
   ⟨P20, 4, 0, 81⟩,    -- V11
   ⟨P24, 2, 2, 92⟩,    -- V12
   ⟨P26, 4, 0, 107⟩,   -- V13
   ⟨P30, 3, 1, 115⟩,   -- V14
   ⟨P22, 5, 1, 87⟩,    -- V15
   ⟨P24, 5, 1, 98⟩,    -- V16
   ⟨P28, 1, 5, 107⟩,   -- V17
   ⟨P30, 5, 1, 120⟩,   -- V18
   ⟨P28, 3, 4, 113⟩,   -- V19
   ⟨P28, 3, 5, 107⟩,   -- V20
   ⟨P28, 4, 4, 116⟩,   -- V21
   ⟨P28, 2, 7, 111⟩,   -- V22
   ⟨P30, 4, 5, 121⟩,   -- V23
   ⟨P30, 6, 4, 117⟩,   -- V24
   ⟨P26, 8, 4, 106⟩,   -- V25
   ⟨P28, 10, 2, 114⟩,  -- V26
   ⟨P30, 8, 4, 122⟩,   -- V27
   ⟨P30, 3, 10, 117⟩,  -- V28
   ⟨P30, 7, 7, 116⟩,   -- V29
   ⟨P30, 5, 10, 115⟩,  -- V30
   ⟨P30, 13, 3, 115⟩,  -- V31
   ⟨P30, 17, 0, 115⟩,  -- V32
   ⟨P30, 17, 1, 115⟩,  -- V33
   ⟨P30, 13, 6, 115⟩,  -- V34
   ⟨P30, 12, 7, 121⟩,  -- V35
   ⟨P30, 6, 14, 121⟩,  -- V36
   ⟨P30, 17, 4, 122⟩,  -- V37
   ⟨P30, 4, 18, 122⟩,  -- V38
   ⟨P30, 20, 4, 117⟩,  -- V39
   ⟨P30, 19, 6, 118⟩]  -- V40

/-- Default (out-of-range) table entry; a NULL poly is modelled as `[]`. -/
def VPARAM_DEFAULT : QrVersionParam := ⟨[], 0, 0, 0⟩

/-- In the C accessors, `size_t v = version.version - 1` wraps around for
version 0 (size_t underflow), giving a huge index that fails the `v >= 40`
range check.  `versionIndex` reproduces that size_t subtraction. -/
def versionIndex (version : Nat) : Nat := (version + (2 ^ 64 - 1)) % 2 ^ 64

/-- Table entry for a version, `VPARAM[v]` after the index computation. -/
def vparamOf (version : Nat) : QrVersionParam := VPARAM.getD (versionIndex version) VPARAM_DEFAULT

/-- Function `qr_version_width`: width of the QR code in modules (u8 arithmetic). -/
def qr_version_width (version : Nat) : Nat := (version * 4 + 17) % 256

/-- Function `qr_version_max_data`: data capacity D(v) in bytes,
`g1_blk_size * g1_blocks + (g1_blk_size + 1) * g2_blocks`, 0 out of range. -/
def qr_version_max_data (version : Nat) : Nat :=
  if versionIndex version ≥ 40 then 0
  else
    (vparamOf version).g1_blk_size * (vparamOf version).g1_blocks +
      ((vparamOf version).g1_blk_size + 1) * (vparamOf version).g2_blocks

/-- Function `qr_version_ec_size`: length of the generator polynomial, recovered in the
source by comparing the poly pointer against P7..P30. -/
def qr_version_ec_size (version : Nat) : Nat :=
  if versionIndex version ≥ 40 then 0
  else
    let p := (vparamOf version).poly
    if p = [] then 0
    else if p = P7 then 7
    else if p = P10 then 10
    else if p = P15 then 15
    else if p = P18 then 18
    else if p = P20 then 20
    else if p = P22 then 22
    else if p = P24 then 24
    else if p = P26 then 26
    else if p = P28 then 28
    else if p = P30 then 30
    else 0

/-- Function `qr_version_g1_blocks`. -/
def qr_version_g1_blocks (version : Nat) : Nat :=
  if versionIndex version ≥ 40 then 0 else (vparamOf version).g1_blocks

/-- Function `qr_version_g2_blocks`. -/
def qr_version_g2_blocks (version : Nat) : Nat :=
  if versionIndex version ≥ 40 then 0 else (vparamOf version).g2_blocks

/-- Function `qr_version_g1_blk_size`. -/
def qr_version_g1_blk_size (version : Nat) : Nat :=
  if versionIndex version ≥ 40 then 0 else (vparamOf version).g1_blk_size

/-- Function `qr_max_data_size(version, url_len)`: exported capacity query. -/
def qr_max_data_size (version : Nat) (url_len : Nat) : Nat :=
  if version < 1 ∨ version > 40 then 0
  else
    let max_data := qr_version_max_data version
    if url_len > 0 then
      -- Binary segment (URL) 4 + 16 bits, numeric segment (kmsg) 4 + 12 bits => 5 bytes
      if url_len + 5 ≥ max_data then 0
      else ((max_data - url_len - 5) * 39) / 40
    else
      -- Remove 3 bytes for binary segment (header 4 bits, length 16 bits, stop 4 bits)
      max_data - 3

/-! ## Claims C3 and C9: capacity queries -/

/-- For a valid version, `qr_max_data_size(v, 0)` is `D(v) - 3` (shared
helper, checked against the VPARAM table for every version). -/
theorem qr_max_data_size_valid (v : Nat) (h1 : 1 ≤ v) (h2 : v ≤ 40) :
    qr_max_data_size v 0 = qr_version_max_data v - 3 := by
  have hb : ∀ w, w < 41 → (1 ≤ w → qr_max_data_size w 0 = qr_version_max_data w - 3) := by
    decide
  exact hb v (by omega) h1

/-- Claim C3: for every version v in 1..40, `qr_max_data_size(v, 0)` equals
D(v) - 3 where D(v) is the VPARAM-derived data capacity `qr_version_max_data`,
and for any version outside 1..40 it returns 0. -/
theorem qr_max_data_size_eq (v : Nat) :
    qr_max_data_size v 0 = if 1 ≤ v ∧ v ≤ 40 then qr_version_max_data v - 3 else 0 := by
  by_cases h : 1 ≤ v ∧ v ≤ 40
  · rw [if_pos h]
    exact qr_max_data_size_valid v h.1 h.2
  · rw [if_neg h]
    have hv : v < 1 ∨ v > 40 := by omega
    simp only [qr_max_data_size, if_pos hv]

/-- Claim C9 counterexample: for version 20 the data capacity D(20) is not 485
and the byte-mode capacity `qr_max_data_size(20, 0)` is not 482 (the claim is
false on the code: V20 at Low ECC has 861 data codewords). -/
theorem c9_counterexample :
    qr_version_max_data 20 ≠ 485 ∧ qr_max_data_size 20 0 ≠ 482 := by decide

/-- Claim C9 (amended): for version 20 the data-codeword capacity is
D(20) = 861 and the byte-mode capacity is `qr_max_data_size(20, 0)` = 858. -/
theorem c9_amended :
    qr_version_max_data 20 = 861 ∧ qr_max_data_size 20 0 = 858 := by decide

/-! ## Segments -/

/-- The `enum segment_type` values. -/
inductive SegmentType where
  | binary : SegmentType
  | numeric : SegmentType
deriving DecidableEq

/-- Segment mode bits `MODE_STOP`, `MODE_NUMERIC`, `MODE_BINARY`. -/
def MODE_STOP : Nat := 0

/-- Numeric mode indicator `MODE_NUMERIC`. -/
def MODE_NUMERIC : Nat := 1

/-- Binary mode indicator `MODE_BINARY`. -/
def MODE_BINARY : Nat := 4

/-- Table `NUM_CHARS_BITS[4]`: bits to encode 0..3 characters in numeric mode. -/
def NUM_CHARS_BITS : List Nat := [0, 4, 7, 10]

/-- Table `POW10[4]`. -/
def POW10 : List Nat := [1, 10, 100, 1000]

/-- The `struct qr_segment` record: the data pointer is modelled as the pointed-to byte
list; `length` is the separate length field of the struct. -/
structure QrSegment where
  type : SegmentType
  data : List Nat
  length : Nat
deriving DecidableEq

/-- Read byte `data[i]` of a u8 array (reads past the modelled list give 0). -/
def byteAt (data : List Nat) (i : Nat) : Nat := data.getD i 0 % 256

/-- Function `qr_segment_length_bits_count`: bits of the character-count field. -/
def qr_segment_length_bits_count (segment : QrSegment) (version : Nat) : Nat :=
  match segment.type with
  | .binary => if version ≤ 9 then 8 else 16
  | .numeric =>
      if version ≤ 9 then 10
      else if version ≤ 26 then 12
      else 14

/-- Function `qr_segment_character_count`. -/
def qr_segment_character_count (segment : QrSegment) : Nat :=
  match segment.type with
  | .binary => segment.length
  | .numeric =>
      let data_bits := segment.length * 8
      let last_chars := if data_bits % 13 ≠ 0 then (data_bits % 13 + 1) / 3 else 0
      -- 4 decimal numbers per 13 bits + remainder
      4 * (data_bits / 13) + last_chars

/-- Function `qr_segment_total_size_bits`: header + length field + payload bits. -/
def qr_segment_total_size_bits (segment : QrSegment) (version : Nat) : Nat :=
  let data_size :=
    match segment.type with
    | .binary => segment.length * 8
    | .numeric =>
        let digits := qr_segment_character_count segment
        10 * (digits / 3) + NUM_CHARS_BITS.getD (digits % 3) 0
  4 + qr_segment_length_bits_count segment version + data_size

/-- Function `qr_segment_get_header`: mode indicator and its bit size. -/
def qr_segment_get_header (segment : QrSegment) : Nat × Nat :=
  match segment.type with
  | .binary => (MODE_BINARY, 4)
  | .numeric => (MODE_NUMERIC, 4)

/-- Function `qr_segment_get_length_field`: character count masked to the field width,
with the field width. -/
def qr_segment_get_length_field (segment : QrSegment) (version : Nat) : Nat × Nat :=
  let len_bits := qr_segment_length_bits_count segment version
  let char_count := qr_segment_character_count segment
  (char_count &&& ((1 <<< len_bits) - 1), len_bits)

/-- Function `get_next_13b(data, data_len, offset, &size)`: extract the next up-to-13
bits from `data` at bit offset `offset`; returns `(number, size)`.  All local
u16 stores carry an explicit `% 65536`; the C shift-left/shift-right pairs
happen in (at least) 32-bit int arithmetic, so they truncate nothing by
themselves.  In the `b > 16` branch the two-byte sub-case shifts by the
size_t value `16 - b` which is negative in C (undefined); the branch is
unreachable (it needs `byte_off + 2 ≥ data_len`, impossible when 13 bits are
still available), and the model uses the Nat truncated subtraction there. -/
def get_next_13b (data : List Nat) (data_len : Nat) (offset : Nat) : Nat × Nat :=
  if offset ≥ data_len * 8 then (0, 0)
  else
    let bit_size := min 13 (data_len * 8 - offset)
    let byte_off := offset / 8
    let bit_off := offset % 8
    let b := bit_off + bit_size
    let first_byte := byteAt data byte_off % 256
    if b ≤ 8 then
      -- All bits within the first byte
      (((first_byte <<< bit_off) >>> (8 - bit_size)) % 65536, bit_size)
    else if b ≤ 16 then
      -- Bits span first and second byte
      let number := ((first_byte <<< bit_off) >>> bit_off) % 65536  -- Clear left bits
      let number := (number <<< (b - 8)) % 65536                    -- Shift to position
      if byte_off + 1 < data_len then
        ((number + (byteAt data (byte_off + 1) >>> (16 - b))) % 65536, bit_size)
      else
        (number, 8 - bit_off)  -- Adjust if we are at the end of data
    else
      -- Bits span three bytes
      if byte_off + 2 < data_len then
        let number := ((((first_byte <<< bit_off) >>> bit_off) <<< (b - 8))) % 65536
        let number := (number + ((byteAt data (byte_off + 1) % 256) <<< (b - 16))) % 65536
        let number := (number + (byteAt data (byte_off + 2) >>> (24 - b))) % 65536
        (number, bit_size)
      else if byte_off + 1 < data_len then
        -- Only two bytes available (dead code, see the doc comment)
        let number := ((((first_byte <<< bit_off) >>> bit_off) <<< (b - 8))) % 65536
        let number := (number + (byteAt data (byte_off + 1) >>> (16 - b))) % 65536
        (number, 16 - bit_off)
      else (0, bit_size)

/-! ## Claim C2: the 13-bit fetch can exceed its reported width -/

/-- Claim C2 is false on the code: at buffer `FF FF FF` and bit offset 1 the
fetch reports 13 bits but returns 16383 ≥ 2^13 (the "clear left bits" shift
pair is an identity in int arithmetic), so a repacked group need not be a
4-digit number in [0, 9999]. -/
theorem get_next_13b_overflow :
    get_next_13b [255, 255, 255] 3 1 = (16383, 13) ∧ ¬ (16383 < 2 ^ 13) := by decide

/-! ## Segment iterator and message assembly -/

/-- If no bits are left, `get_next_13b` reports size 0. -/
theorem get_next_13b_size_zero (data : List Nat) (data_len offset : Nat)
    (h : data_len * 8 ≤ offset) : (get_next_13b data data_len offset).2 = 0 := by
  unfold get_next_13b
  rw [if_pos (by omega)]

/-- The size reported by `get_next_13b` never exceeds the bits remaining. -/
theorem get_next_13b_size_le (data : List Nat) (data_len offset : Nat)
    (h : offset < data_len * 8) : (get_next_13b data data_len offset).2 ≤ data_len * 8 - offset := by
  unfold get_next_13b
  rw [if_neg (by omega)]
  have h8 : offset % 8 < 8 := Nat.mod_lt _ (by omega)
  have hdm : offset / 8 * 8 + offset % 8 = offset := Nat.div_add_mod' offset 8
  dsimp only
  split
  · omega
  · split
    · split
      · omega
      · omega
    · split
      · omega
      · split
        · omega
        · omega

/-- Number of new characters contributed by a fetched group of `bit_size`
bits: `(bit_size == 1) ? 1 : (bit_size + 1) / 3`. -/
def numericNewChars (bit_size : Nat) : Nat := if bit_size = 1 then 1 else (bit_size + 1) / 3

/-- A fetched group of `bit_size ≠ 0` bits contributes fewer than
`2 * bit_size + 3` characters (used for termination). -/
theorem numericNewChars_lt (bit_size : Nat) : numericNewChars bit_size < 2 * bit_size + 3 := by
  unfold numericNewChars
  rcases eq_or_ne bit_size 1 with h1 | h1
  · simp [h1]
  · rw [if_neg h1]
    omega

/-- Function `qr_segment_iterator_next` for a numeric segment, turned into the list of
`(bits, size)` pairs the iterator produces from state
`(offset, carry, carry_len)`.  Each call either flushes a full 3-digit carry,
fetches the next 13-bit group, or flushes the trailing digits at end of
data. -/
def numericEmit (data : List Nat) (data_len offset carry carry_len : Nat) : List (Nat × Nat) :=
  if carry_len = 3 then
    -- We have a full group of 3 digits, output it
    (carry, NUM_CHARS_BITS.getD 3 0) :: numericEmit data data_len offset 0 0
  else
    if hbs : (get_next_13b data data_len offset).2 = 0 then
      -- End of data, output any remaining digits
      if carry_len > 0 then [(carry, NUM_CHARS_BITS.getD carry_len 0)] else []
    else
      if hgt : carry_len + numericNewChars (get_next_13b data data_len offset).2 > 3 then
        -- More than 3 digits total, output first 3
        (carry * POW10.getD (numericNewChars (get_next_13b data data_len offset).2 -
            (carry_len + numericNewChars (get_next_13b data data_len offset).2 - 3)) 0 +
          (get_next_13b data data_len offset).1 /
            POW10.getD (carry_len + numericNewChars (get_next_13b data data_len offset).2 - 3) 0,
          NUM_CHARS_BITS.getD 3 0) ::
          numericEmit data data_len (offset + (get_next_13b data data_len offset).2)
            ((get_next_13b data data_len offset).1 %
              POW10.getD (carry_len + numericNewChars (get_next_13b data data_len offset).2 - 3) 0)
            (carry_len + numericNewChars (get_next_13b data data_len offset).2 - 3)
      else
        -- Add digits to carry, output all of them
        (carry * POW10.getD (numericNewChars (get_next_13b data data_len offset).2) 0 +
          (get_next_13b data data_len offset).1,
          NUM_CHARS_BITS.getD (carry_len + numericNewChars (get_next_13b data data_len offset).2) 0) ::
          numericEmit data data_len (offset + (get_next_13b data data_len offset).2) 0 0
termination_by 2 * (data_len * 8 - offset) + carry_len
decreasing_by
  · omega
  · have ho : offset < data_len * 8 := by
      by_contra hc
      exact hbs (get_next_13b_size_zero data data_len offset (by omega))
    have h1 := get_next_13b_size_le data data_len offset ho
    have h2 := numericNewChars_lt (get_next_13b data data_len offset).2
    omega
  · have ho : offset < data_len * 8 := by
      by_contra hc
      exact hbs (get_next_13b_size_zero data data_len offset (by omega))
    have h1 := get_next_13b_size_le data data_len offset ho
    omega

/-- The stream of `(bits, size)` pairs a `segment_iterator` yields for a
segment: a binary segment yields its bytes (8 bits each), a numeric segment
yields the repacked decimal groups. -/
def qr_segment_emission (segment : QrSegment) : List (Nat × Nat) :=
  match segment.type with
  | .binary => (List.range segment.length).map (fun i => (byteAt segment.data i, 8))
  | .numeric => numericEmit segment.data segment.length 0 0 0

/-- Write byte value `v` at index `i` of a byte buffer. -/
def memWrite (mem : Nat → Nat) (i v : Nat) : Nat → Nat := fun j => if j = i then v else mem j

/-- Function `encoded_msg_push`: push `len_bits` bits of `number` (a u16) into the
data buffer at bit offset `offset`; returns the new buffer and offset. -/
def encoded_msg_push (mem : Nat → Nat) (offset number len_bits : Nat) : (Nat → Nat) × Nat :=
  let byte_off := offset / 8
  let bit_off := offset % 8
  let b := bit_off + len_bits
  let mem' :=
    if bit_off = 0 ∧ b ≤ 8 then
      -- Aligned to byte boundary, all bits fit in one byte
      memWrite mem byte_off ((number <<< (8 - b)) &&& 255)
    else if bit_off = 0 then
      -- Aligned to byte boundary, spans multiple bytes
      memWrite (memWrite mem byte_off ((number >>> (b - 8)) &&& 255))
        (byte_off + 1) ((number <<< (16 - b)) &&& 255)
    else if b ≤ 8 then
      -- Not aligned, all bits fit in current byte
      memWrite mem byte_off (mem byte_off ||| ((number <<< (8 - b)) &&& 255))
    else if b ≤ 16 then
      -- Not aligned, spans two bytes
      memWrite (memWrite mem byte_off (mem byte_off ||| ((number >>> (b - 8)) &&& 255)))
        (byte_off + 1) ((number <<< (16 - b)) &&& 255)
    else
      -- Not aligned, spans three bytes
      memWrite (memWrite (memWrite mem byte_off (mem byte_off ||| ((number >>> (b - 8)) &&& 255)))
        (byte_off + 1) ((number >>> (b - 16)) &&& 255))
        (byte_off + 2) ((number <<< (24 - b)) &&& 255)
  (mem', offset + len_bits)

/-- Push a list of `(bits, size)` pairs in order. -/
def encoded_msg_push_list (st : (Nat → Nat) × Nat) (l : List (Nat × Nat)) : (Nat → Nat) × Nat :=
  l.foldl (fun st bs => encoded_msg_push st.1 st.2 bs.1 bs.2) st

/-- The buffer and bit offset after pushing all segments (header, length
field, payload each), the 4-bit terminator, and the zero bits aligning to the
next byte boundary — everything `encoded_msg_add_segments` does before the
byte padding loop. -/
def encoded_msg_segments_state (version : Nat) (segments : List QrSegment)
    (mem0 : Nat → Nat) : (Nat → Nat) × Nat :=
  let st := segments.foldl (fun st seg =>
      let hd := qr_segment_get_header seg
      let st := encoded_msg_push st.1 st.2 hd.1 hd.2
      let lf := qr_segment_get_length_field seg version
      let st := encoded_msg_push st.1 st.2 lf.1 lf.2
      encoded_msg_push_list st (qr_segment_emission seg)) (mem0, 0)
  -- Add terminator
  let st := encoded_msg_push st.1 st.2 MODE_STOP 4
  -- Add padding to byte boundary if needed
  if st.2 % 8 ≠ 0 then encoded_msg_push st.1 st.2 0 (8 - st.2 % 8) else st

/-- The final padding loop of `encoded_msg_add_segments`:
`for (i = pad_offset; i < max_data; i++) data[i] = PADDING[(i & 1) ^ (pad_offset & 1)]`,
expressed by recursion on the trip count `n = max_data - pad_offset`. -/
def padFill (mem : Nat → Nat) (pad_offset n : Nat) : Nat → Nat :=
  match n with
  | 0 => mem
  | n + 1 =>
      memWrite (padFill mem pad_offset n) (pad_offset + n)
        (PADDING.getD (((pad_offset + n) &&& 1) ^^^ (pad_offset &&& 1)) 0)

/-- Function `encoded_msg_add_segments`: returns the data buffer after the whole
routine, together with the byte offset `pad_offset` where padding began. -/
def encoded_msg_add_segments (version : Nat) (segments : List QrSegment)
    (mem0 : Nat → Nat) : (Nat → Nat) × Nat :=
  let st := encoded_msg_segments_state version segments mem0
  let pad_offset := st.2 / 8
  (padFill st.1 pad_offset (qr_version_max_data version - pad_offset), pad_offset)

/-! ## Claim C8: trailing padding bytes -/

/-- Inside the range it covers, the padding loop writes
`PADDING[(i & 1) ^ (pad_offset & 1)]`. -/
theorem padFill_at (mem : Nat → Nat) (pad_offset n i : Nat)
    (h1 : pad_offset ≤ i) (h2 : i < pad_offset + n) :
    padFill mem pad_offset n i = PADDING.getD ((i &&& 1) ^^^ (pad_offset &&& 1)) 0 := by
  induction n with
  | zero => omega
  | succ n ih =>
      by_cases hi : i = pad_offset + n
      · subst hi
        simp [padFill, memWrite]
      · have : padFill mem pad_offset (n + 1) i = padFill mem pad_offset n i := by
          simp [padFill, memWrite, hi]
        rw [this]
        exact ih (by omega)

/-- The padding byte at index `i ≥ pad_offset` is 0xEC for even `i - pad_offset`
and 0x11 for odd `i - pad_offset`. -/
theorem padByte_alternates (pad_offset i : Nat) (h : pad_offset ≤ i) :
    PADDING.getD ((i &&& 1) ^^^ (pad_offset &&& 1)) 0 =
      if (i - pad_offset) % 2 = 0 then 236 else 17 := by
  rcases Nat.mod_two_eq_zero_or_one i with hi | hi <;>
    rcases Nat.mod_two_eq_zero_or_one pad_offset with hp | hp <;>
      simp only [Nat.and_one_is_mod, hi, hp]
  · rw [if_pos (by omega)]
    rfl
  · rw [if_neg (by omega)]
    rfl
  · rw [if_neg (by omega)]
    rfl
  · rw [if_pos (by omega)]
    rfl

/-- Claim C8: for every version in 1..40 and every segment list that fits,
after `encoded_msg_add_segments` the data bytes from the first padded byte
(the byte after the terminator and zero bit-padding, at byte offset
`pad_offset`) up to index D(v) - 1 hold the alternating padding bytes
0xEC, 0x11, starting with 0xEC, so the first D(v) bytes are fully
populated. -/
theorem encoded_msg_add_segments_padding (v : Nat) (segments : List QrSegment)
    (h1 : 1 ≤ v) (h2 : v ≤ 40)
    (hfit : segments.foldl (fun acc s => acc + qr_segment_total_size_bits s v) 0 + 4 ≤
      qr_version_max_data v * 8)
    (i : Nat)
    (hlo : (encoded_msg_add_segments v segments (fun _ => 0)).2 ≤ i)
    (hhi : i < qr_version_max_data v) :
    (encoded_msg_add_segments v segments (fun _ => 0)).1 i =
      if (i - (encoded_msg_add_segments v segments (fun _ => 0)).2) % 2 = 0 then 236 else 17 := by
  have heq : encoded_msg_add_segments v segments (fun _ => 0) =
      (padFill (encoded_msg_segments_state v segments (fun _ => 0)).1
        ((encoded_msg_segments_state v segments (fun _ => 0)).2 / 8)
        (qr_version_max_data v - (encoded_msg_segments_state v segments (fun _ => 0)).2 / 8),
       (encoded_msg_segments_state v segments (fun _ => 0)).2 / 8) := rfl
  rw [heq] at hlo ⊢
  simp only at hlo ⊢
  rw [padFill_at _ _ _ _ hlo (by omega)]
  exact padByte_alternates _ _ hlo

/-- Witness for C8: version 1 with the single byte segment "A"; the segment
bits end at byte offset 3, and data byte 4 is the second padding byte 0x11. -/
theorem encoded_msg_add_segments_padding_witness :
    (encoded_msg_add_segments 1 [⟨SegmentType.binary, [65], 1⟩] (fun _ => 0)).1 4 =
      if (4 - (encoded_msg_add_segments 1 [⟨SegmentType.binary, [65], 1⟩] (fun _ => 0)).2) % 2 = 0
        then 236 else 17 :=
  encoded_msg_add_segments_padding 1 [⟨SegmentType.binary, [65], 1⟩] (by decide) (by decide)
    (by decide) 4 (by decide) (by decide)

/-! ## Encoded message iterator (interleaved output) -/

/-- The fields of `struct encoded_msg` that drive the output iterator, as
`encoded_msg_init` sets them. -/
structure EncodedMsg where
  ec_size : Nat
  g1_blocks : Nat
  g2_blocks : Nat
  g1_blk_size : Nat
  g2_blk_size : Nat
deriving DecidableEq

/-- The `encoded_msg` parameters `encoded_msg_init` derives for a version
(`g2_blk_size = g1_blk_size + 1`). -/
def emParams (version : Nat) : EncodedMsg :=
  { ec_size := qr_version_ec_size version
    g1_blocks := qr_version_g1_blocks version
    g2_blocks := qr_version_g2_blocks version
    g1_blk_size := qr_version_g1_blk_size version
    g2_blk_size := qr_version_g1_blk_size version + 1 }

/-- Total number of blocks `g1_blocks + g2_blocks`. -/
def emBlocks (em : EncodedMsg) : Nat := em.g1_blocks + em.g2_blocks

/-- Offset `g1_end`: end of the group-1 data region. -/
def emG1End (em : EncodedMsg) : Nat := em.g1_blocks * em.g1_blk_size

/-- Offset `g2_end`: end of the data region (equals D(v)). -/
def emG2End (em : EncodedMsg) : Nat := emG1End em + em.g2_blocks * em.g2_blk_size

/-- Offset `ec_end`: end of the whole encoded message. -/
def emEcEnd (em : EncodedMsg) : Nat := emG2End em + em.ec_size * emBlocks em

/-- The buffer index `encoded_msg_iterator_next` reads for iterator position
`it` (the body of the interleaved output format computation). -/
def encoded_msg_iterator_read_offset (em : EncodedMsg) (it : Nat) : Nat :=
  if it < em.g1_blk_size * emBlocks em then
    -- Interleave group 1 and group 2 blocks
    let blk := it % emBlocks em
    let blk_off := it / emBlocks em
    if blk < em.g1_blocks then
      blk * em.g1_blk_size + blk_off
    else
      emG1End em + (blk - em.g1_blocks) * em.g2_blk_size + blk_off
  else if it < emG2End em then
    -- Last byte of group 2 blocks
    let blk2 := it - emBlocks em * em.g1_blk_size
    emG1End em + blk2 / em.g2_blk_size * em.g2_blk_size + em.g2_blk_size - 1
  else
    -- EC blocks
    let ec_offset := it - emG2End em
    let blk := ec_offset % emBlocks em
    let blk_off := ec_offset / emBlocks em
    emG2End em + blk * em.ec_size + blk_off

/-- Function `encoded_msg_iterator_next`: at iterator position `it`, either report
exhaustion (`none`) or yield the read index together with the advanced
iterator position. -/
def encoded_msg_iterator_next (em : EncodedMsg) (it : Nat) : Option (Nat × Nat) :=
  if it ≥ emEcEnd em then none
  else some (encoded_msg_iterator_read_offset em it, it + 1)

/-! ## Claim C1: phase-2 interleaving -/

/-- Claim C1 is false on the code: for version 10 (g1 = 2, g2 = 2, s1 = 68,
s2 = 69, D_phase1 = 68·4 = 272), the phase-2 byte for group-2 block i = 1
(iterator position 272 + 1 = 273) is read from buffer index 204 — the last
byte of group-2 block 0 — instead of index
`g1_end + 1·s2 + (s2 - 1) = 273`, the last byte of group-2 block 1, because
`blk2 / g2_blk_size * g2_blk_size` is 0 for every `blk2 < g2_blk_size`. -/
theorem c1_phase2_reads_block0 :
    encoded_msg_iterator_read_offset (emParams 10) 273 = 204 ∧
    encoded_msg_iterator_read_offset (emParams 10) 273 ≠
      emG1End (emParams 10) + 1 * (emParams 10).g2_blk_size +
        ((emParams 10).g2_blk_size - 1) := by decide

/-! ## Claim C10: iterator exhaustion and bounds -/

/-- For any block geometry with at least one group-1 block, a nonempty block
size and `g2_blk_size = g1_blk_size + 1`, the index the iterator reads stays
inside the encoded message region `[0, ec_end)`. -/
theorem encoded_msg_iterator_read_offset_lt (em : EncodedMsg)
    (hg1 : 1 ≤ em.g1_blocks) (hs1 : 1 ≤ em.g1_blk_size)
    (hs2 : em.g2_blk_size = em.g1_blk_size + 1)
    (it : Nat) (hit : it < emEcEnd em) :
    encoded_msg_iterator_read_offset em it < emEcEnd em := by
  obtain ⟨e, g1, g2, s1, s2⟩ := em
  simp only at hg1 hs1 hs2
  subst hs2
  unfold emEcEnd emG2End emG1End emBlocks at hit
  unfold encoded_msg_iterator_read_offset emEcEnd emG2End emG1End emBlocks
  simp only at hit ⊢
  have hb : 0 < g1 + g2 := by omega
  split
  · -- phase 1: interleaved data columns
    rename_i hph1
    have hblk : it % (g1 + g2) < g1 + g2 := Nat.mod_lt _ hb
    have hboff : it / (g1 + g2) < s1 := (Nat.div_lt_iff_lt_mul hb).mpr hph1
    split
    · -- group 1 block
      rename_i hlt
      have h1 : (it % (g1 + g2) + 1) * s1 ≤ g1 * s1 := Nat.mul_le_mul_right _ (by omega)
      have h2 : (it % (g1 + g2) + 1) * s1 = it % (g1 + g2) * s1 + s1 := by ring
      omega
    · -- group 2 block
      rename_i hge
      have h1 : (it % (g1 + g2) - g1 + 1) * (s1 + 1) ≤ g2 * (s1 + 1) :=
        Nat.mul_le_mul_right _ (by omega)
      have h2 : (it % (g1 + g2) - g1 + 1) * (s1 + 1) =
          (it % (g1 + g2) - g1) * (s1 + 1) + (s1 + 1) := by ring
      omega
  · split
    · -- phase 2: last byte of the group-2 blocks
      rename_i hph1 hph2
      have hcomm : s1 * (g1 + g2) = (g1 + g2) * s1 := Nat.mul_comm _ _
      have hkey : g1 * s1 + g2 * (s1 + 1) = (g1 + g2) * s1 + g2 := by ring
      have hA : (it - (g1 + g2) * s1) / (s1 + 1) * (s1 + 1) ≤ it - (g1 + g2) * s1 :=
        Nat.div_mul_le_self _ _
      have hg2 : 1 ≤ g2 := by omega
      have hC : g2 * (s1 + 1) = g2 * s1 + g2 := by ring
      have hD : s1 ≤ g2 * s1 := Nat.le_mul_of_pos_left _ hg2
      omega
    · -- phase 3: interleaved parity columns
      rename_i hph1 hph2
      have hecoff : it - (g1 * s1 + g2 * (s1 + 1)) < e * (g1 + g2) := by omega
      have hblk : (it - (g1 * s1 + g2 * (s1 + 1))) % (g1 + g2) < g1 + g2 := Nat.mod_lt _ hb
      have hboff : (it - (g1 * s1 + g2 * (s1 + 1))) / (g1 + g2) < e :=
        (Nat.div_lt_iff_lt_mul hb).mpr (by
          have := Nat.mul_comm e (g1 + g2)
          omega)
      have h1 : ((it - (g1 * s1 + g2 * (s1 + 1))) % (g1 + g2) + 1) * e ≤ (g1 + g2) * e :=
        Nat.mul_le_mul_right _ (by omega)
      have h2 : ((it - (g1 * s1 + g2 * (s1 + 1))) % (g1 + g2) + 1) * e =
          (it - (g1 * s1 + g2 * (s1 + 1))) % (g1 + g2) * e + e := by ring
      have h3 : (g1 + g2) * e = e * (g1 + g2) := Nat.mul_comm _ _
      omega

/-- The `ec_end` of the iterator equals `D(v) + E(v)·(g1+g2)` for every version
(both sides are 0 out of range). -/
theorem emEcEnd_eq (w : Nat) :
    emEcEnd (emParams w) =
      qr_version_max_data w +
        qr_version_ec_size w * (qr_version_g1_blocks w + qr_version_g2_blocks w) := by
  unfold emEcEnd emG2End emG1End emBlocks emParams qr_version_max_data qr_version_g1_blocks
    qr_version_g2_blocks qr_version_g1_blk_size
  by_cases h : versionIndex w ≥ 40
  · simp [h]
  · simp only [if_neg h]
    ring


/-- Claim C10: for every valid version 1..40 and iterator position, the
interleaved output iterator yields a byte (reading from an index inside the
encoded message region, and advancing by one) exactly while fewer than
`D(v) + E(v)·(g1+g2)` bytes have been yielded, and reports exhaustion at
every position from there on — so from position 0 it yields exactly
`D(v) + E(v)·(g1+g2)` bytes and then reports exhaustion forever. -/
theorem encoded_msg_iterator_spec (v : Nat) (h1 : 1 ≤ v) (h2 : v ≤ 40) (it : Nat) :
    (encoded_msg_iterator_next (emParams v) it = none ↔
      qr_version_max_data v +
        qr_version_ec_size v * (qr_version_g1_blocks v + qr_version_g2_blocks v) ≤ it) ∧
    (∀ j, encoded_msg_iterator_next (emParams v) it = none →
      encoded_msg_iterator_next (emParams v) (it + j) = none) ∧
    (it < qr_version_max_data v +
        qr_version_ec_size v * (qr_version_g1_blocks v + qr_version_g2_blocks v) →
      encoded_msg_iterator_next (emParams v) it =
        some (encoded_msg_iterator_read_offset (emParams v) it, it + 1) ∧
      encoded_msg_iterator_read_offset (emParams v) it <
        qr_version_max_data v +
          qr_version_ec_size v * (qr_version_g1_blocks v + qr_version_g2_blocks v)) := by
  have hfacts : ∀ w, w < 41 → (1 ≤ w →
      1 ≤ (emParams w).g1_blocks ∧ 1 ≤ (emParams w).g1_blk_size) := by decide
  have he := emEcEnd_eq v
  have hf := hfacts v (by omega) h1
  refine ⟨?_, ?_, ?_⟩
  · unfold encoded_msg_iterator_next
    constructor
    · intro h
      by_cases hge : it ≥ emEcEnd (emParams v)
      · omega
      · rw [if_neg hge] at h
        exact absurd h (by simp)
    · intro h
      rw [if_pos (by omega)]
  · intro j h
    unfold encoded_msg_iterator_next at h ⊢
    by_cases hge : it ≥ emEcEnd (emParams v)
    · rw [if_pos (by omega)]
    · rw [if_neg hge] at h
      exact absurd h (by simp)
  · intro hlt
    have hit : it < emEcEnd (emParams v) := by omega
    constructor
    · unfold encoded_msg_iterator_next
      rw [if_neg (by omega)]
    · have hg2s : (emParams v).g2_blk_size = (emParams v).g1_blk_size + 1 := by
        simp [emParams]
      have := encoded_msg_iterator_read_offset_lt (emParams v) hf.1 hf.2 hg2s it hit
      omega

/-- Witness for C10: at version 1 the iterator is exhausted at position
`D(1) + E(1)·1 = 19 + 7 = 26`. -/
theorem encoded_msg_iterator_spec_witness :
    encoded_msg_iterator_next (emParams 1) 26 = none :=
  (encoded_msg_iterator_spec 1 (by decide) (by decide) 26).1.mpr (by decide)

/-! ## qr_generate (claim C4) -/

/-- The validation performed by `encoded_msg_init` (NULL-pointer checks
dropped): version must be 1..40, the segments plus the 4-bit terminator must
fit in `D(v)` bytes, and the buffer must hold data plus parity.  On success
the routine only fills the `encoded_msg` fields and clears the buffer. -/
def encoded_msg_init_ok (segments : List QrSegment) (qr_version : Nat)
    (data_size : Nat) : Bool :=
  if segments.length = 0 ∨ data_size = 0 then false
  else if qr_version < 1 ∨ qr_version > 40 then false
  else
    let total_bits :=
      segments.foldl (fun acc s => acc + qr_segment_total_size_bits s qr_version) 0 + 4
    let max_data := qr_version_max_data qr_version
    if total_bits > max_data * 8 then false
    else
      let required_size := max_data +
        qr_version_ec_size qr_version *
          (qr_version_g1_blocks qr_version + qr_version_g2_blocks qr_version)
      decide (data_size ≥ required_size)

/-- The validation performed by `qr_image_init`: the image buffer must hold
`stride * width` bytes, `stride = DIV_ROUND_UP(width, 8)`. -/
def qr_image_init_ok (qr_version : Nat) (data_size : Nat) : Bool :=
  let width := qr_version_width qr_version
  let stride := (width + 7) / 8
  decide (data_size ≥ stride * width)

/-- Function `qr_generate`: buffer-size and version validation, segment setup
(`[byte(url), numeric(data)]` with a URL, `[byte(data)]` without),
`encoded_msg_init` and `qr_image_init` validation, returning the symbol
width on success and 0 on any failure.  The encoding and painting steps
write into the caller's buffers and do not affect the returned value. -/
def qr_generate (url : Option (List Nat)) (data : List Nat) (data_len : Nat)
    (qr_version : Nat) (data_size tmp_size : Nat) : Nat :=
  if data_size < 4071 ∨ tmp_size < 3706 then 0
  else if qr_version < 1 ∨ qr_version > 40 then 0
  else
    let segments : List QrSegment :=
      match url with
      | some u => [⟨SegmentType.binary, u, u.length⟩, ⟨SegmentType.numeric, data, data_len⟩]
      | none => [⟨SegmentType.binary, data, data_len⟩]
    if ¬ encoded_msg_init_ok segments qr_version tmp_size then 0
    else if ¬ qr_image_init_ok qr_version data_size then 0
    else qr_version_width qr_version

/-- Claim C4: for every version 1..40, `url = NULL`, buffers of at least
4071 and 3706 bytes and any `data_len ≤ qr_max_data_size(v, 0)`,
`qr_generate` returns the width `4v + 17`; it returns 0 when the version is
outside 1..40 or either buffer is below its required minimum. -/
theorem qr_generate_spec :
    (∀ (data : List Nat) (data_len v data_size tmp_size : Nat),
      1 ≤ v → v ≤ 40 → 4071 ≤ data_size → 3706 ≤ tmp_size →
      data_len ≤ qr_max_data_size v 0 →
      qr_generate none data data_len v data_size tmp_size = 4 * v + 17) ∧
    (∀ (data : List Nat) (data_len v data_size tmp_size : Nat),
      (v < 1 ∨ 40 < v ∨ data_size < 4071 ∨ tmp_size < 3706) →
      qr_generate none data data_len v data_size tmp_size = 0) := by
  have htab : ∀ w, w < 41 → (1 ≤ w →
      19 ≤ qr_version_max_data w ∧
      qr_version_max_data w +
        qr_version_ec_size w * (qr_version_g1_blocks w + qr_version_g2_blocks w) ≤ 3706 ∧
      ((qr_version_width w + 7) / 8) * qr_version_width w ≤ 4071) := by decide
  constructor
  · intro data data_len v data_size tmp_size h1 h2 hds hts hlen
    have ht := htab v (by omega) h1
    have hcap : qr_max_data_size v 0 = qr_version_max_data v - 3 :=
      qr_max_data_size_valid v h1 h2
    unfold qr_generate
    rw [if_neg (by omega), if_neg (by omega)]
    have hinit : encoded_msg_init_ok [⟨SegmentType.binary, data, data_len⟩] v tmp_size = true := by
      have htsb : qr_segment_total_size_bits ⟨SegmentType.binary, data, data_len⟩ v =
          4 + (if v ≤ 9 then 8 else 16) + data_len * 8 := rfl
      unfold encoded_msg_init_ok
      simp only [List.foldl_cons, List.foldl_nil, Nat.zero_add, htsb]
      rw [if_neg (by simp; omega), if_neg (by omega)]
      rcases le_or_lt v 9 with h9 | h9
      · simp only [if_pos h9]
        rw [if_neg (by omega)]
        simp only [decide_eq_true_eq]
        omega
      · simp only [if_neg (by omega : ¬ v ≤ 9)]
        rw [if_neg (by omega)]
        simp only [decide_eq_true_eq]
        omega
    rw [if_neg (by simp [hinit])]
    have himg : qr_image_init_ok v data_size = true := by
      unfold qr_image_init_ok
      simp only [decide_eq_true_eq]
      omega
    rw [if_neg (by simp [himg])]
    unfold qr_version_width
    omega
  · intro data data_len v data_size tmp_size h
    unfold qr_generate
    by_cases hb : data_size < 4071 ∨ tmp_size < 3706
    · rw [if_pos hb]
    · rw [if_neg hb, if_pos (by omega)]

/-- Witness for C4: version 1 with 10 data bytes declared returns width 21,
and version 0 returns 0. -/
theorem qr_generate_spec_witness :
    qr_generate none [] 10 1 4071 3706 = 4 * 1 + 17 ∧ qr_generate none [] 10 0 4071 3706 = 0 :=
  ⟨qr_generate_spec.1 [] 10 1 4071 3706 (by decide) (by decide) (by decide) (by decide) (by decide),
   qr_generate_spec.2 [] 10 0 4071 3706 (by omega)⟩

/-! ## Payload fitter (qrcon_compress_data, claims C5 and C6) -/

/-- The fitter's target capacity: `qr_max_data_size(qr_version, 0)` clamped
to the destination buffer size. -/
def fitterTarget (qr_version dst_capacity : Nat) : Nat :=
  if qr_max_data_size qr_version 0 > dst_capacity then dst_capacity
  else qr_max_data_size qr_version 0

/-- The fit predicate: compressing the first `m` source bytes succeeds and
the result plus the 8-byte header fits the target capacity.  The ZSTD
compressor is modelled by the oracle `csize`, giving the compressed size of
each prefix, `none` on a compression error (all of the fitter's ZSTD calls
use the same source, level and scratch capacity, so one oracle describes
them all). -/
def fitsAt (csize : Nat → Option Nat) (target m : Nat) : Prop :=
  ∃ c, csize m = some c ∧ 8 + c ≤ target

/-- The fitter's binary search over the prefix length, from
`qrcon_compress_data`: on a compression error or an oversized result move
`high` down, on a fit record `(best, best_compressed)` and move `low` up.
Returns the recorded pair. -/
def searchLoop (csize : Nat → Option Nat) (target : Nat)
    (low high best best_compressed : Nat) : Nat × Nat :=
  if hlh : low ≤ high then
    let mid := low + (high - low) / 2
    if mid = 0 then (best, best_compressed)  -- Avoid infinite loop if src_size is huge
    else
      match csize mid with
      | none => searchLoop csize target low (mid - 1) best best_compressed
      | some c =>
          if 8 + c ≤ target then searchLoop csize target (mid + 1) high mid c
          else searchLoop csize target low (mid - 1) best best_compressed
  else (best, best_compressed)
termination_by high + 1 - low
decreasing_by
  all_goals omega

/-- Function `qrcon_compress_data` (driver file): returns
`(compressed frame length, processed source bytes)`, `(0, 0)` on failure.
The search-phase ZSTD calls are modelled by the oracle `csize` and the final
recompression by the separate oracle `csize_final`: the C calls
`ZSTD_compressCCtx` with the same arguments both times, but through a shared
mutable compression context, so the final pass is an independent invocation
of the external compressor that need not reproduce the search result — which
is exactly the situation the code's accept-on-differ branch handles.  A
deterministic compressor is the instance `csize_final = csize`. -/
def qrcon_compress_data (csize csize_final : Nat → Option Nat)
    (qr_version src_size dst_capacity : Nat) : Nat × Nat :=
  if qr_version < 1 ∨ qr_version > 40 then (0, 0)
  else if qr_max_data_size qr_version 0 = 0 then (0, 0)
  else if fitterTarget qr_version dst_capacity ≤ 8 then (0, 0)
  else
    let bb := searchLoop csize (fitterTarget qr_version dst_capacity) 1 src_size 0 0
    if 0 < bb.1 then
      -- Final compression of exactly best_size bytes
      match csize_final bb.1 with
      | none => (0, 0)
      | some c =>
          if c ≠ bb.2 then
            -- Final size differs from the search result: accept if it fits
            if fitterTarget qr_version dst_capacity < 8 + c then (0, 0) else (8 + c, bb.1)
          else (8 + c, bb.1)
    else (0, 0)

/-- The possible outcomes of the binary search: either nothing in `[1, n]`
fits, or the result is the largest fitting prefix length with its recorded
compressed size. -/
def searchOutcome (csize : Nat → Option Nat) (target n b bc : Nat) : Prop :=
  (b = 0 ∧ ∀ m, 1 ≤ m → m ≤ n → ¬ fitsAt csize target m) ∨
  (1 ≤ b ∧ b ≤ n ∧ csize b = some bc ∧ 8 + bc ≤ target ∧
    ∀ m, 1 ≤ m → m ≤ n → fitsAt csize target m → m ≤ b)

/-- Correctness of the fitter's binary search under a monotone-decreasing fit
predicate, by strong induction on the interval size. -/
theorem searchLoop_spec (csize : Nat → Option Nat) (target n : Nat)
    (hanti : ∀ m m2, 1 ≤ m → m ≤ m2 → m2 ≤ n →
      fitsAt csize target m2 → fitsAt csize target m) :
    ∀ k low high best bestc,
      high + 1 - low ≤ k → 1 ≤ low → high ≤ n → best < low →
      (best = 0 ∨ (1 ≤ best ∧ best ≤ n ∧ csize best = some bestc ∧ 8 + bestc ≤ target)) →
      (∀ m, 1 ≤ m → m < low → fitsAt csize target m → m ≤ best) →
      (∀ m, high < m → m ≤ n → ¬ fitsAt csize target m) →
      searchOutcome csize target n
        (searchLoop csize target low high best bestc).1
        (searchLoop csize target low high best bestc).2 := by
  intro k
  induction k with
  | zero =>
      intro low high best bestc hk hlow hhigh hblow hbrec hlowinv hhighinv
      unfold searchLoop
      rw [dif_neg (by omega)]
      rcases hbrec with hb0 | hbs
      · left
        refine ⟨hb0, fun m hm1 hmn hf => ?_⟩
        rcases le_or_lt m high with hmh | hmh
        · have := hlowinv m hm1 (by omega) hf
          omega
        · exact absurd hf (hhighinv m hmh hmn)
      · right
        refine ⟨hbs.1, hbs.2.1, hbs.2.2.1, hbs.2.2.2, fun m hm1 hmn hf => ?_⟩
        rcases le_or_lt m high with hmh | hmh
        · exact hlowinv m hm1 (by omega) hf
        · exact absurd hf (hhighinv m hmh hmn)
  | succ k ih =>
      intro low high best bestc hk hlow hhigh hblow hbrec hlowinv hhighinv
      by_cases hlh : low ≤ high
      · unfold searchLoop
        rw [dif_pos hlh]
        have hmidlo : low ≤ low + (high - low) / 2 := by omega
        have hmidhi : low + (high - low) / 2 ≤ high := by omega
        rw [if_neg (by omega)]
        rcases hcs : csize (low + (high - low) / 2) with _ | c
        · simp only
          have hnofit : ¬ fitsAt csize target (low + (high - low) / 2) := by
            rintro ⟨c2, hc2, _⟩
            rw [hcs] at hc2
            exact absurd hc2 (by simp)
          exact ih low (low + (high - low) / 2 - 1) best bestc (by omega) hlow (by omega)
            hblow hbrec hlowinv
            (fun m hm hmn hf => by
              rcases le_or_lt m high with hmh | hmh
              · exact hnofit (hanti _ m (by omega) (by omega) (by omega) hf)
              · exact hhighinv m hmh hmn hf)
        · simp only
          by_cases hfit : 8 + c ≤ target
          · rw [if_pos hfit]
            exact ih (low + (high - low) / 2 + 1) high (low + (high - low) / 2) c
              (by omega) (by omega) hhigh (by omega)
              (Or.inr ⟨by omega, by omega, hcs, hfit⟩)
              (fun m hm hmlt hf => by omega)
              hhighinv
          · rw [if_neg hfit]
            have hnofit : ¬ fitsAt csize target (low + (high - low) / 2) := by
              rintro ⟨c2, hc2, hc2le⟩
              rw [hcs] at hc2
              injection hc2 with hvv
              omega
            exact ih low (low + (high - low) / 2 - 1) best bestc (by omega) hlow (by omega)
              hblow hbrec hlowinv
              (fun m hm hmn hf => by
                rcases le_or_lt m high with hmh | hmh
                · exact hnofit (hanti _ m (by omega) (by omega) (by omega) hf)
                · exact hhighinv m hmh hmn hf)
      · unfold searchLoop
        rw [dif_neg hlh]
        rcases hbrec with hb0 | hbs
        · left
          refine ⟨hb0, fun m hm1 hmn hf => ?_⟩
          rcases le_or_lt m high with hmh | hmh
          · have := hlowinv m hm1 (by omega) hf
            omega
          · exact absurd hf (hhighinv m hmh hmn)
        · right
          refine ⟨hbs.1, hbs.2.1, hbs.2.2.1, hbs.2.2.2, fun m hm1 hmn hf => ?_⟩
          rcases le_or_lt m high with hmh | hmh
          · exact hlowinv m hm1 (by omega) hf
          · exact absurd hf (hhighinv m hmh hmn)

/-- Claim C5: for a fixed valid version and source, when the fit predicate is
monotone-decreasing in the prefix length (and some prefix fits), the fitter's
binary search terminates (the model is a total function) and
`qrcon_compress_data` returns with the processed size equal to the maximum
`m` in `[1, src_size]` with `fits(m)`, and with frame length 8 plus the
compressed size of that prefix. -/
theorem qrcon_compress_data_spec (csize : Nat → Option Nat) (v n cap : Nat)
    (h1 : 1 ≤ v) (h2 : v ≤ 40) (htgt : 8 < fitterTarget v cap)
    (hanti : ∀ m m2, 1 ≤ m → m ≤ m2 → m2 ≤ n →
      fitsAt csize (fitterTarget v cap) m2 → fitsAt csize (fitterTarget v cap) m)
    (hn : 1 ≤ n) (hfit1 : fitsAt csize (fitterTarget v cap) 1) :
    1 ≤ (qrcon_compress_data csize csize v n cap).2 ∧
    (qrcon_compress_data csize csize v n cap).2 ≤ n ∧
    fitsAt csize (fitterTarget v cap) (qrcon_compress_data csize csize v n cap).2 ∧
    (∀ m, 1 ≤ m → m ≤ n → fitsAt csize (fitterTarget v cap) m →
      m ≤ (qrcon_compress_data csize csize v n cap).2) ∧
    (∃ c, csize (qrcon_compress_data csize csize v n cap).2 = some c ∧
      (qrcon_compress_data csize csize v n cap).1 = 8 + c) := by
  have hq0 : 8 < qr_max_data_size v 0 := by
    unfold fitterTarget at htgt
    split at htgt <;> omega
  have hout := searchLoop_spec csize (fitterTarget v cap) n hanti n 1 n 0 0
    (by omega) (by omega) (by omega) (by omega) (Or.inl rfl)
    (fun m hm hml hf => by omega)
    (fun m hml hmn hf => by omega)
  rcases hout with ⟨hb0, hnone⟩ | ⟨hb1, hbn, hbcs, hbcle, hbmax⟩
  · exact absurd hfit1 (hnone 1 (by omega) hn)
  · have heq : qrcon_compress_data csize csize v n cap =
        (8 + (searchLoop csize (fitterTarget v cap) 1 n 0 0).2,
         (searchLoop csize (fitterTarget v cap) 1 n 0 0).1) := by
      have hb1p : 0 < (searchLoop csize (fitterTarget v cap) 1 n 0 0).1 := hb1
      unfold qrcon_compress_data
      rw [if_neg (by omega), if_neg (by omega), if_neg (by omega)]
      dsimp only
      rw [if_pos hb1p, hbcs]
      simp
    rw [heq]
    exact ⟨hb1, hbn, ⟨_, hbcs, hbcle⟩, hbmax, ⟨_, hbcs, rfl⟩⟩

/-- Witness for C5: identity-size compressor at version 1 (capacity 16) with
5 source bytes; every prefix fits, so the maximum is 5. -/
theorem qrcon_compress_data_spec_witness :
    1 ≤ (qrcon_compress_data (fun m => some m) (fun m => some m) 1 5 100).2 ∧
    (qrcon_compress_data (fun m => some m) (fun m => some m) 1 5 100).2 ≤ 5 :=
  have h := qrcon_compress_data_spec (fun m => some m) 1 5 100 (by decide) (by decide) (by decide)
    (by
      intro m m2 hm hle hn hf
      obtain ⟨c, hc, hcle⟩ := hf
      simp only [Option.some.injEq] at hc
      exact ⟨m, rfl, by omega⟩)
    (by decide) ⟨1, rfl, by decide⟩
  ⟨h.1, h.2.1⟩


/-- Claim C6: (past validation) the fitter returns frame length 0 exactly
when it cannot produce a fitting frame — the search recorded no fitting
prefix, the final recompression errors, or the final recompression overflows
the target capacity; a zero return always comes with processed size 0; and a
final-pass compressed size that differs from the one recorded during the
search but still fits is accepted and returned. -/
theorem qrcon_compress_data_zero_iff (csize csize_final : Nat → Option Nat)
    (v n cap : Nat)
    (h1 : 1 ≤ v) (h2 : v ≤ 40) (htgt : 8 < fitterTarget v cap) :
    ((qrcon_compress_data csize csize_final v n cap).1 = 0 ↔
      ((searchLoop csize (fitterTarget v cap) 1 n 0 0).1 = 0 ∨
       csize_final (searchLoop csize (fitterTarget v cap) 1 n 0 0).1 = none ∨
       (∃ c, csize_final (searchLoop csize (fitterTarget v cap) 1 n 0 0).1 = some c ∧
         c ≠ (searchLoop csize (fitterTarget v cap) 1 n 0 0).2 ∧
         fitterTarget v cap < 8 + c))) ∧
    ((qrcon_compress_data csize csize_final v n cap).1 = 0 →
      (qrcon_compress_data csize csize_final v n cap).2 = 0) ∧
    (∀ c, csize_final (searchLoop csize (fitterTarget v cap) 1 n 0 0).1 = some c →
      c ≠ (searchLoop csize (fitterTarget v cap) 1 n 0 0).2 →
      8 + c ≤ fitterTarget v cap →
      0 < (searchLoop csize (fitterTarget v cap) 1 n 0 0).1 →
      qrcon_compress_data csize csize_final v n cap =
        (8 + c, (searchLoop csize (fitterTarget v cap) 1 n 0 0).1)) := by
  have hq0 : 8 < qr_max_data_size v 0 := by
    unfold fitterTarget at htgt
    split at htgt <;> omega
  have hshape : qrcon_compress_data csize csize_final v n cap =
      (if 0 < (searchLoop csize (fitterTarget v cap) 1 n 0 0).1 then
        match csize_final (searchLoop csize (fitterTarget v cap) 1 n 0 0).1 with
        | none => ((0, 0) : Nat × Nat)
        | some c =>
            if c ≠ (searchLoop csize (fitterTarget v cap) 1 n 0 0).2 then
              if fitterTarget v cap < 8 + c then (0, 0)
              else (8 + c, (searchLoop csize (fitterTarget v cap) 1 n 0 0).1)
            else (8 + c, (searchLoop csize (fitterTarget v cap) 1 n 0 0).1)
      else (0, 0)) := by
    unfold qrcon_compress_data
    rw [if_neg (by omega), if_neg (by omega), if_neg (by omega)]
  rw [hshape]
  by_cases hb : 0 < (searchLoop csize (fitterTarget v cap) 1 n 0 0).1
  · rw [if_pos hb]
    rcases hcs : csize_final (searchLoop csize (fitterTarget v cap) 1 n 0 0).1 with _ | c
    · refine ⟨⟨fun _ => Or.inr (Or.inl rfl), fun _ => rfl⟩, fun _ => rfl, ?_⟩
      intro c hc
      exact absurd hc (by simp)
    · dsimp only
      by_cases hne : c ≠ (searchLoop csize (fitterTarget v cap) 1 n 0 0).2
      · rw [if_pos hne]
        by_cases hov : fitterTarget v cap < 8 + c
        · rw [if_pos hov]
          refine ⟨⟨fun _ => Or.inr (Or.inr ⟨c, rfl, hne, hov⟩), fun _ => rfl⟩, fun _ => rfl, ?_⟩
          intro c2 hc2 hne2 hfit2 hb2
          injection hc2 with hvv
          exact absurd hfit2 (by omega)
        · rw [if_neg hov]
          refine ⟨⟨?_, ?_⟩, ?_, ?_⟩
          · intro h
            dsimp only at h
            omega
          · rintro (h0 | hnone | ⟨c2, hc2, hne2, hov2⟩)
            · exact absurd h0 (by omega)
            · exact absurd hnone (by simp)
            · injection hc2 with hvv
              exact absurd hov2 (by omega)
          · intro h
            dsimp only at h ⊢
            omega
          · intro c2 hc2 hne2 hfit2 hb2
            injection hc2 with hvv
            rw [hvv]
      · rw [if_neg hne]
        simp only [Decidable.not_not] at hne
        refine ⟨⟨?_, ?_⟩, ?_, ?_⟩
        · intro h
          dsimp only at h
          omega
        · rintro (h0 | hnone | ⟨c2, hc2, hne2, hov2⟩)
          · exact absurd h0 (by omega)
          · exact absurd hnone (by simp)
          · injection hc2 with hvv
            exact absurd (show c2 = (searchLoop csize (fitterTarget v cap) 1 n 0 0).2 by omega) hne2
        · intro h
          dsimp only at h ⊢
          omega
        · intro c2 hc2 hne2 hfit2 hb2
          injection hc2 with hvv
          exact absurd (show c2 = (searchLoop csize (fitterTarget v cap) 1 n 0 0).2 by omega) hne2
  · rw [if_neg hb]
    exact ⟨⟨fun _ => Or.inl (by omega), fun _ => rfl⟩, fun _ => rfl,
      fun c hc hne hfit hb2 => absurd hb2 hb⟩

/-- Witness for C6, exercising the accept-on-differ path: the search oracle
reports size 1 for every prefix (so the search records (3, 1) for 3 source
bytes at version 1, capacity 16) while the final pass reports size 2; 2
differs from the recorded 1 but 8 + 2 still fits, so the fitter accepts and
returns the final size. -/
theorem qrcon_compress_data_zero_iff_witness :
    qrcon_compress_data (fun _ => some 1) (fun _ => some 2) 1 3 100 =
      (8 + 2, (searchLoop (fun _ => some 1) (fitterTarget 1 100) 1 3 0 0).1) := by
  have ht : fitterTarget 1 100 = 16 := by decide
  have hs : searchLoop (fun _ => some 1) (fitterTarget 1 100) 1 3 0 0 = (3, 1) := by
    rw [ht]
    simp [searchLoop]
  exact (qrcon_compress_data_zero_iff (fun _ => some 1) (fun _ => some 2) 1 3 100
    (by decide) (by decide) (by decide)).2.2 2 rfl
    (by rw [hs]; decide) (by decide) (by rw [hs]; decide)

/-! ## Driver loop (qrcon_process_history, claim C7) -/

/-- On fitter success the reported processed size is at least 1 (the search
only records prefix lengths `mid ≥ low ≥ 1`). -/
theorem qrcon_compress_data_processed_pos (csize csize_final : Nat → Option Nat)
    (v n cap : Nat) :
    (qrcon_compress_data csize csize_final v n cap).1 ≠ 0 →
      1 ≤ (qrcon_compress_data csize csize_final v n cap).2 := by
  unfold qrcon_compress_data
  split
  · intro h
    exact absurd rfl h
  · split
    · intro h
      exact absurd rfl h
    · split
      · intro h
        exact absurd rfl h
      · dsimp only
        split
        · rename_i hb
          split
          · intro h
            exact absurd rfl h
          · split
            · split
              · intro h
                exact absurd rfl h
              · intro _
                exact hb
            · intro _
              exact hb
        · intro h
          exact absurd rfl h

/-- The history-processing loop of `qrcon_process_history`, as a step
function: while `pos < len`, call the fitter on the remaining bytes, advance
by the processed size on success and by `min(remaining, 1024)`
(`QR_SKIP_SIZE`) on failure.  `fuel` bounds the number of iterations; the
returned value is the cursor after at most `fuel` iterations. -/
def driverSteps (fit : Nat → Nat → Nat × Nat) (len : Nat) : Nat → Nat → Nat
  | pos, 0 => pos
  | pos, fuel + 1 =>
      if pos < len then
        let r := fit pos (len - pos)
        let skip := if len - pos < 1024 then len - pos else 1024
        driverSteps fit len (if r.1 = 0 then pos + skip else pos + r.2) fuel
      else pos

/-- Claim C7: for a history buffer of length `len`, the driver loop
terminates after at most `len` iterations: each iteration advances the
cursor by at least 1 (fitter success advances by the processed size ≥ 1,
failure by `min(1024, remaining) ≥ 1`), so `len` iterations always suffice
to bring the cursor from `pos` to the end (`len ≤ pos + fuel` iterations in
general, hence `fuel = len` from `pos = 0`). -/
theorem qrcon_process_history_terminates
    (csizeAt csizeFinalAt : Nat → Nat → Option Nat) (v cap len : Nat) :
    ∀ fuel pos, len ≤ pos + fuel →
      len ≤ driverSteps
        (fun p rem => qrcon_compress_data (csizeAt p) (csizeFinalAt p) v rem cap)
        len pos fuel := by
  intro fuel
  induction fuel with
  | zero =>
      intro pos hpf
      unfold driverSteps
      omega
  | succ fuel ih =>
      intro pos hpf
      unfold driverSteps
      split
      · rename_i hlt
        dsimp only
        by_cases hz :
            (qrcon_compress_data (csizeAt pos) (csizeFinalAt pos) v (len - pos) cap).1 = 0
        · rw [if_pos hz]
          apply ih
          split <;> omega
        · rw [if_neg hz]
          have hpos := qrcon_compress_data_processed_pos (csizeAt pos) (csizeFinalAt pos)
            v (len - pos) cap hz
          apply ih
          omega
      · omega

/-- Witness for C7: a 5-byte history with a constant-size compressor is
drained within 5 iterations. -/
theorem qrcon_process_history_terminates_witness :
    5 ≤ driverSteps
      (fun p rem => qrcon_compress_data ((fun _ _ => some 1) p) ((fun _ _ => some 1) p) 1 rem 100)
      5 0 5 :=
  qrcon_process_history_terminates (fun _ _ => some 1) (fun _ _ => some 1) 1 100 5 5 0 (by omega)
